import Mathlib

/-!
# Verification of the crypto_tracker ingestion-and-aggregation core

Shallow embedding of the storage layer (`src/storage/schema.py`,
`src/storage/database.py`), the sentiment utilities
(`src/utils/sentiment_analyzer.py`) and the orchestrator
(`src/ingestion_pipeline.py`), with theorems settling the frozen claims.

Conventions:
* SQL `REAL` values are modelled as rationals (`ℚ`); computations that the
  spec states over real arithmetic (the volatility square root) are carried
  out in `ℝ`.
* SQL `NULL` is modelled as `Option.none`.
* Timestamps are ISO-8601 strings; `DATE(ts)` truncation is the first ten
  characters of the string (`"YYYY-MM-DD"`).
* A table is a `List` of rows; SQLite's `INSERT OR REPLACE` deletes every
  row conflicting with the new row on the table's uniqueness constraint and
  then inserts the new row.
-/

namespace CryptoTracker

/-- An SQL value: text, integer, real, or NULL. -/
inductive Val
  | str (s : String)
  | int (n : Int)
  | rat (q : ℚ)
  | null
deriving DecidableEq, Repr

/-- A table row, in the column order of the corresponding INSERT statement. -/
abbrev Row := List Val

/-- A table is a list of rows. -/
abbrev Table := List Row

/-!
## Record kinds and natural keys (C1)

One constructor per record kind whose insert helper in
`src/storage/database.py` issues an `INSERT OR REPLACE`.  For each kind,
`keyIdx` lists the positions (in the helper's column order) of the columns
of the table's natural key.  For the seven tables declared in
`src/storage/schema.py` the key is the table's `UNIQUE(...)` constraint.
-/

/-- The record kinds written by the storage engine's upsert operations. -/
inductive RecordKind
  | ohlc                -- insert_ohlc_data → ohlc_hourly
  | sentimentIndex      -- insert_sentiment_data → sentiment_daily
  | etfFlow             -- insert_etf_flows → etf_flows_daily
  | marketMetrics       -- insert_market_metrics → market_metrics_daily
  | fundingRate         -- insert_funding_rates → funding_rates_snapshots
  | openInterest        -- insert_open_interest → open_interest_daily
  | rawSocialPost       -- insert_social_posts_raw → social_posts_raw
  | socialSentiment     -- insert_social_sentiment → social_sentiment_daily
  | rawNewsArticle      -- insert_news_articles_raw → news_articles_raw
  | newsSentiment       -- insert_news_sentiment → news_sentiment_daily
  | rawSearchTrend      -- insert_search_trends_raw → search_trends_raw
  | searchInterest      -- insert_search_interest → search_interest_daily
  | dailySnapshot       -- compute_daily_snapshot → daily_market_snapshot
deriving DecidableEq, Repr

/-- Modelled from the spec for the six Phase-3 tables: their `CREATE TABLE`
statements are missing from `src/storage/schema.py` (only the repository's
tests, insert helpers and callers reference them), so their natural keys are
taken from the spec's data-model table: raw social post `(post_id)`, raw news
article `(article URL)`, raw search-trend point `(timestamp, keyword)`,
daily social sentiment aggregate `(date, platform)`, daily news sentiment
aggregate `(date)`, daily search interest aggregate `(date, keyword)`.
The remaining kinds take their keys from the `UNIQUE` constraints in
`src/storage/schema.py`.  Positions refer to the column order of the
corresponding INSERT statement in `src/storage/database.py`. -/
def RecordKind.keyIdx : RecordKind → List Nat
  | .ohlc => [0, 1]            -- UNIQUE(asset, ts_utc) of (asset, ts_utc, open, high, low, close, session)
  | .sentimentIndex => [0]     -- as_of_date UNIQUE of (as_of_date, fng_value, classification)
  | .etfFlow => [0, 1]         -- UNIQUE(as_of_date, ticker)
  | .marketMetrics => [0, 1]   -- UNIQUE(as_of_date, asset)
  | .fundingRate => [0, 1, 5]  -- UNIQUE(ts_utc, asset, source) of (ts_utc, asset, rate, interval, mark, source)
  | .openInterest => [0, 1, 4] -- UNIQUE(as_of_date, asset, source) of (as_of_date, asset, oi_usd, oi_contracts, source)
  | .rawSocialPost => [0]      -- (post_id)
  | .socialSentiment => [0, 1] -- (as_of_date, platform)
  | .rawNewsArticle => [0]     -- (article_url)
  | .newsSentiment => [0]      -- (as_of_date)
  | .rawSearchTrend => [0, 1]  -- (ts_utc, keyword)
  | .searchInterest => [0, 1]  -- (as_of_date, keyword)
  | .dailySnapshot => [0, 1]   -- UNIQUE(as_of_date, asset)

/-- The natural key of a row: the projection to the key columns. -/
def rowKey (keyIdx : List Nat) (r : Row) : List (Option Val) :=
  keyIdx.map (fun i => r.get? i)

/-- `INSERT OR REPLACE`: SQLite deletes every existing row that conflicts
with the incoming row on the uniqueness constraint, then inserts the
incoming row. -/
def insertOrReplace (keyIdx : List Nat) (t : Table) (r : Row) : Table :=
  (t.filter (fun r2 => rowKey keyIdx r2 ≠ rowKey keyIdx r)) ++ [r]

/-- `cursor.executemany` of an `INSERT OR REPLACE` statement: the rows are
processed in order within one batch. -/
def insertMany (keyIdx : List Nat) (t : Table) (rs : List Row) : Table :=
  rs.foldl (insertOrReplace keyIdx) t

/-- The rows of a table carrying a given natural key. -/
def rowsWithKey (keyIdx : List Nat) (t : Table) (k : List (Option Val)) : Table :=
  t.filter (fun r => rowKey keyIdx r = k)

theorem rowsWithKey_insertOrReplace (keyIdx : List Nat) (t : Table) (r : Row) :
    rowsWithKey keyIdx (insertOrReplace keyIdx t r) (rowKey keyIdx r) = [r] := by
  unfold rowsWithKey insertOrReplace
  rw [List.filter_append]
  have h1 : (t.filter (fun r2 => rowKey keyIdx r2 ≠ rowKey keyIdx r)).filter
      (fun r2 => rowKey keyIdx r2 = rowKey keyIdx r) = [] := by
    rw [List.filter_filter]
    apply List.filter_eq_nil_iff.mpr
    intro a _
    by_cases h : rowKey keyIdx a = rowKey keyIdx r <;> simp [h]
  rw [h1]
  simp

/-- C1: for every record kind, inserting two records with the same natural
key — in one `executemany` batch or in two separate calls — leaves exactly
one row with that key, holding the second record's values, and never raises
a duplicate-key error (the model of `INSERT OR REPLACE` is total). -/
theorem upsert_last_write_wins (k : RecordKind) (t : Table) (r1 r2 : Row)
    (hkey : rowKey k.keyIdx r1 = rowKey k.keyIdx r2) :
    rowsWithKey k.keyIdx (insertMany k.keyIdx t [r1, r2]) (rowKey k.keyIdx r2) = [r2]
    ∧ rowsWithKey k.keyIdx
        (insertOrReplace k.keyIdx (insertOrReplace k.keyIdx t r1) r2)
        (rowKey k.keyIdx r2) = [r2] := by
  constructor
  · show rowsWithKey k.keyIdx
      (insertOrReplace k.keyIdx (insertOrReplace k.keyIdx t r1) r2) _ = [r2]
    exact rowsWithKey_insertOrReplace k.keyIdx _ r2
  · exact rowsWithKey_insertOrReplace k.keyIdx _ r2

/-- Witness for C1: two concrete OHLC rows with the same `(asset, ts_utc)`
key but different closes; after inserting both, the table holds exactly the
second row for that key. -/
theorem upsert_last_write_wins_witness :
    rowsWithKey RecordKind.ohlc.keyIdx
      (insertMany RecordKind.ohlc.keyIdx []
        [[Val.str "bitcoin", Val.str "2024-01-01T00:00:00", Val.rat 1, Val.rat 2,
          Val.rat 0, Val.rat 1, Val.null],
         [Val.str "bitcoin", Val.str "2024-01-01T00:00:00", Val.rat 3, Val.rat 4,
          Val.rat 2, Val.rat 3, Val.null]])
      (rowKey RecordKind.ohlc.keyIdx
        [Val.str "bitcoin", Val.str "2024-01-01T00:00:00", Val.rat 3, Val.rat 4,
         Val.rat 2, Val.rat 3, Val.null]) =
      [[Val.str "bitcoin", Val.str "2024-01-01T00:00:00", Val.rat 3, Val.rat 4,
        Val.rat 2, Val.rat 3, Val.null]] :=
  (upsert_last_write_wins RecordKind.ohlc []
    [Val.str "bitcoin", Val.str "2024-01-01T00:00:00", Val.rat 1, Val.rat 2,
     Val.rat 0, Val.rat 1, Val.null]
    [Val.str "bitcoin", Val.str "2024-01-01T00:00:00", Val.rat 3, Val.rat 4,
     Val.rat 2, Val.rat 3, Val.null] (by decide)).1

/-!
## Schema initialization (C2)

`DatabaseSchema.initialize_database` (src/storage/schema.py) executes the
`CREATE TABLE IF NOT EXISTS` statement of every entry of
`DatabaseSchema.TABLES`, the index statements, and records the schema
version; on a fresh store the set of tables existing afterwards is exactly
the set of `TABLES` keys.
-/

namespace DatabaseSchema

/-- The keys of the `DatabaseSchema.TABLES` dict in `src/storage/schema.py`
(schema version 2 — the dict ends at `schema_version`). -/
def TABLES : List String :=
  ["ohlc_hourly", "sentiment_daily", "etf_flows_daily", "market_metrics_daily",
   "funding_rates_snapshots", "open_interest_daily", "daily_market_snapshot",
   "schema_version"]

/-- The tables existing after `initialize_database` runs on a fresh store:
one `CREATE TABLE` per entry of `TABLES` is executed, and nothing else
creates tables. -/
def createdTables : List String := TABLES

end DatabaseSchema

namespace MarketDatabase

/-- The tables enumerated by `MarketDatabase.get_record_counts` in
`src/storage/database.py`. -/
def recordCountTables : List String :=
  ["ohlc_hourly", "sentiment_daily", "etf_flows_daily",
   "daily_market_snapshot", "market_metrics_daily",
   "funding_rates_snapshots", "open_interest_daily",
   "social_posts_raw", "social_sentiment_daily",
   "news_articles_raw", "news_sentiment_daily",
   "search_trends_raw", "search_interest_daily"]

end MarketDatabase

/-- C2 (code bug): `get_record_counts` reads six tables that
`initialize_database` never creates — the Phase-3 raw and aggregate tables
are absent from `DatabaseSchema.TABLES`, contradicting the repository's own
tests (`tests/test_raw_data_storage.py` asserts the raw tables exist and
`SCHEMA_VERSION == 4`, while the code has version 2). -/
theorem createdTables_missing_phase3_tables :
    ("social_posts_raw" ∈ MarketDatabase.recordCountTables
      ∧ "social_posts_raw" ∉ DatabaseSchema.createdTables)
    ∧ ("social_sentiment_daily" ∈ MarketDatabase.recordCountTables
      ∧ "social_sentiment_daily" ∉ DatabaseSchema.createdTables)
    ∧ ("news_articles_raw" ∈ MarketDatabase.recordCountTables
      ∧ "news_articles_raw" ∉ DatabaseSchema.createdTables)
    ∧ ("news_sentiment_daily" ∈ MarketDatabase.recordCountTables
      ∧ "news_sentiment_daily" ∉ DatabaseSchema.createdTables)
    ∧ ("search_trends_raw" ∈ MarketDatabase.recordCountTables
      ∧ "search_trends_raw" ∉ DatabaseSchema.createdTables)
    ∧ ("search_interest_daily" ∈ MarketDatabase.recordCountTables
      ∧ "search_interest_daily" ∉ DatabaseSchema.createdTables)
    ∧ "schema_version" ∈ DatabaseSchema.createdTables := by
  decide

/-!
## Sentiment classification thresholds (C6)

From `src/utils/sentiment_analyzer.py`.  Compound scores are modelled as
rationals; `0.05` is `5/100`.
-/

/-- `classify_sentiment` (sentiment_analyzer.py lines 144-159). -/
def classify_sentiment (compound_score : ℚ) : String :=
  if compound_score ≥ 5/100 then "POSITIVE"
  else if compound_score ≤ -(5/100) then "NEGATIVE"
  else "NEUTRAL"

/-- Result dict of `aggregate_sentiment_scores`. -/
structure SentimentAgg where
  avg : ℚ
  median : ℚ
  min : ℚ
  max : ℚ
  positive_pct : ℚ
  negative_pct : ℚ
  neutral_pct : ℚ
deriving DecidableEq, Repr

/-- `aggregate_sentiment_scores` (sentiment_analyzer.py lines 162-199). -/
def aggregate_sentiment_scores (scores : List ℚ) : SentimentAgg :=
  if scores = [] then ⟨0, 0, 0, 0, 0, 0, 0⟩
  else
    let scores_sorted := List.insertionSort (· ≤ ·) scores
    let n := scores.length
    let positive := scores.countP (fun s => s ≥ 5/100)
    let negative := scores.countP (fun s => s ≤ -(5/100))
    let neutral := n - positive - negative
    { avg := scores.sum / n
      median := if n % 2 = 1 then scores_sorted.getD (n / 2) 0
                else (scores_sorted.getD (n / 2 - 1) 0 + scores_sorted.getD (n / 2) 0) / 2
      min := scores.foldl (fun a b => if b < a then b else a) (scores.headD 0)
      max := scores.foldl (fun a b => if a < b then b else a) (scores.headD 0)
      positive_pct := (positive : ℚ) / n * 100
      negative_pct := (negative : ℚ) / n * 100
      neutral_pct := (neutral : ℚ) / n * 100 }

/-- C6: the classification thresholds are inclusive `±0.05` — `s ≥ 0.05` is
positive (so exactly `0.05` is positive), `s ≤ -0.05` is negative (so
exactly `-0.05` is negative), everything strictly between is neutral — and
the positive/negative tallies of `aggregate_sentiment_scores` count exactly
the scores that `classify_sentiment` labels positive/negative. -/
theorem sentiment_threshold_boundaries :
    (∀ s : ℚ, 5/100 ≤ s → classify_sentiment s = "POSITIVE")
    ∧ (∀ s : ℚ, s ≤ -(5/100) → classify_sentiment s = "NEGATIVE")
    ∧ (∀ s : ℚ, -(5/100) < s → s < 5/100 → classify_sentiment s = "NEUTRAL")
    ∧ classify_sentiment (5/100) = "POSITIVE"
    ∧ classify_sentiment (-(5/100)) = "NEGATIVE"
    ∧ (∀ scores : List ℚ, scores ≠ [] →
        (aggregate_sentiment_scores scores).positive_pct
          = ((scores.countP (fun s => classify_sentiment s = "POSITIVE")) : ℚ)
              / scores.length * 100
        ∧ (aggregate_sentiment_scores scores).negative_pct
          = ((scores.countP (fun s => classify_sentiment s = "NEGATIVE")) : ℚ)
              / scores.length * 100) := by
  have hpos : ∀ s : ℚ, (classify_sentiment s = "POSITIVE") ↔ 5/100 ≤ s := by
    intro s
    unfold classify_sentiment
    split_ifs with h1 h2
    · exact ⟨fun _ => h1, fun _ => rfl⟩
    · exact ⟨fun h => absurd h (by decide), fun h => absurd h h1⟩
    · exact ⟨fun h => absurd h (by decide), fun h => absurd h h1⟩
  have hneg : ∀ s : ℚ, (classify_sentiment s = "NEGATIVE") ↔ s ≤ -(5/100) := by
    intro s
    unfold classify_sentiment
    split_ifs with h1 h2
    · constructor
      · intro h; exact absurd h (by decide)
      · intro h; exfalso; linarith
    · exact ⟨fun _ => h2, fun _ => rfl⟩
    · exact ⟨fun h => absurd h (by decide), fun h => absurd h h2⟩
  refine ⟨fun s h => (hpos s).mpr h, fun s h => (hneg s).mpr h, ?_, ?_, ?_, ?_⟩
  · intro s h1 h2
    unfold classify_sentiment
    rw [if_neg (by linarith), if_neg (by linarith)]
  · exact (hpos _).mpr le_rfl
  · exact (hneg _).mpr le_rfl
  · intro scores hne
    have hc1 : scores.countP (fun s => classify_sentiment s = "POSITIVE")
        = scores.countP (fun s => s ≥ 5/100) := by
      apply List.countP_congr
      intro s _
      simp [hpos s, ge_iff_le]
    have hc2 : scores.countP (fun s => classify_sentiment s = "NEGATIVE")
        = scores.countP (fun s => s ≤ -(5/100)) := by
      apply List.countP_congr
      intro s _
      simp [hneg s]
    constructor
    · rw [hc1]; simp [aggregate_sentiment_scores, hne]
    · rw [hc2]; simp [aggregate_sentiment_scores, hne]

/-- Witness for C6: concrete boundary scores and a concrete score list. -/
theorem sentiment_threshold_boundaries_witness :
    classify_sentiment (5/100) = "POSITIVE"
    ∧ classify_sentiment (-(5/100)) = "NEGATIVE"
    ∧ classify_sentiment 0 = "NEUTRAL"
    ∧ (aggregate_sentiment_scores [5/100, -(5/100), 0]).positive_pct
        = (([(5 : ℚ)/100, -(5/100), 0].countP
            (fun s => classify_sentiment s = "POSITIVE")) : ℚ) / 3 * 100 := by
  refine ⟨sentiment_threshold_boundaries.2.2.2.1,
          sentiment_threshold_boundaries.2.2.2.2.1,
          sentiment_threshold_boundaries.2.2.1 0 (by norm_num) (by norm_num), ?_⟩
  have h := (sentiment_threshold_boundaries.2.2.2.2.2
    [5/100, -(5/100), 0] (by decide)).1
  simpa using h

/-!
## Python call binding for the Twitter aggregation call (C8)

`IngestionPipeline.ingest_twitter_sentiment` (ingestion_pipeline.py line
556) calls `self.db.compute_social_sentiment_from_raw(date,
platform='twitter')`, but the method signature in
`src/storage/database.py` line 796 is
`def compute_social_sentiment_from_raw(self, as_of_date: str)` — it
declares no `platform` parameter.  Python call binding: a keyword argument
must name a declared parameter not already bound positionally, otherwise
the call raises `TypeError`.
-/

namespace Py

/-- Python call binding for a bound method: `npos` positional arguments and
a list of keyword-argument names, checked against the declared parameter
names (excluding `self`). -/
def bindCall (params : List String) (npos : Nat) (kwargs : List String) :
    Except String Unit :=
  if npos ≤ params.length && kwargs.all (fun k => (params.drop npos).contains k)
  then .ok ()
  else .error "TypeError"

end Py

/-- Parameters (after `self`) of `MarketDatabase.compute_social_sentiment_from_raw`
(src/storage/database.py line 796). -/
def computeSocialSentimentFromRawParams : List String := ["as_of_date"]

/-- C8 (code bug): the Twitter stage's per-day call
`compute_social_sentiment_from_raw(date, platform='twitter')` is not a valid
invocation — the method accepts no `platform` keyword, so the call raises
`TypeError` — while the Reddit stage's call with the date alone binds
fine. -/
theorem twitter_platform_call_raises_type_error :
    Py.bindCall computeSocialSentimentFromRawParams 1 ["platform"]
      = Except.error "TypeError"
    ∧ Py.bindCall computeSocialSentimentFromRawParams 1 [] = Except.ok () :=
  ⟨rfl, rfl⟩

/-!
## The ingestion orchestrator (C3, C9, C10)

From `src/ingestion_pipeline.py`.  Each stage method is embedded as a
function of the outcomes of its external effects: the adapter fetch
(a list of records, or the message of a raised exception), the database
insert (`none` = commit succeeded, `some e` = raised), and — for the
raw+aggregate stages — the outcome of the per-date aggregation call for
each date of the window.
-/

namespace IngestionPipeline

/-- The statistics dict of a simple ingestion stage:
`{'success': ..., 'records': ..., 'errors': [...]}`. -/
structure StageStats where
  success : Bool
  records : Nat
  errors : List String
deriving DecidableEq, Repr

/-- Outcomes of a simple stage's external effects. -/
structure StageEnv where
  fetch : Except String (List Row)
  insertFail : Option String
deriving Repr

/-- The shared body of `ingest_ohlc_data`, `ingest_sentiment_data`,
`ingest_etf_flows`, `ingest_market_metrics`, `ingest_funding_rates` and
`ingest_open_interest`: fetch; on empty result warn and leave
`success=False`; otherwise insert (the reported count is the batch size)
and set `success=True`; any raised exception is caught, its message
appended to `errors`, `success` left `False`. -/
def ingestSimple (env : StageEnv) : StageStats :=
  match env.fetch with
  | .error e => ⟨false, 0, [e]⟩
  | .ok records =>
    if records.isEmpty then ⟨false, 0, []⟩
    else match env.insertFail with
      | some e => ⟨false, 0, [e]⟩
      | none => ⟨true, records.length, []⟩

/-- A stage whose connector is feature-flagged: when disabled the stage is
skipped with `success=True` (`ingest_market_metrics`,
`ingest_funding_rates`, `ingest_open_interest`). -/
def ingestOptional (enabled : Bool) (env : StageEnv) : StageStats :=
  if !enabled then ⟨true, 0, []⟩
  else ingestSimple env

/-- `true` iff the `Except` is a success. -/
def exceptOk {ε α : Type} : Except ε α → Bool
  | .ok _ => true
  | .error _ => false

/-- The per-date aggregation loop
(`for i in range(days): try: compute(date) ... except: errors.append(...)`),
returning the aggregate count and the error list. -/
def aggLoop (agg : String → Except String Unit)
    (mkErr : String → String → String) (dates : List String) :
    Nat × List String :=
  dates.foldl
    (fun acc date =>
      match agg date with
      | .ok _ => (acc.1 + 1, acc.2)
      | .error e => (acc.1, acc.2 ++ [mkErr date e]))
    (0, [])

/-- Error-entry format of the social/Twitter/news/search loops:
`f"Aggregation {date}: {str(e)}"`. -/
def aggErr (date e : String) : String := "Aggregation " ++ date ++ ": " ++ e

/-- Error-entry format of the snapshot loop: `f"{date}: {str(e)}"`. -/
def snapErr (date e : String) : String := date ++ ": " ++ e

/-- The statistics dict of a raw+aggregate stage. -/
structure RawAggStats where
  success : Bool
  raw_records : Nat
  aggregated_records : Nat
  errors : List String
deriving DecidableEq, Repr

/-- Outcomes of a raw+aggregate stage's external effects. -/
structure RawAggEnv where
  enabled : Bool
  fetch : Except String (List Row)
  insertFail : Option String
  dates : List String
  aggOutcome : String → Except String Unit

/-- The shared body of `ingest_social_sentiment`,
`ingest_twitter_sentiment`, `ingest_news_sentiment` and
`ingest_search_trends`: skip when the connector is disabled; fetch raw
records; on non-empty result insert them, then loop per date over the
window computing the aggregate, collecting one error entry per failed
date; `success` is set `True` after the loop regardless of per-date
errors; a raised fetch/insert exception is caught into `errors` with
`success=False`. -/
def ingestRawAgg (env : RawAggEnv) : RawAggStats :=
  if !env.enabled then ⟨true, 0, 0, []⟩
  else match env.fetch with
  | .error e => ⟨false, 0, 0, [e]⟩
  | .ok raws =>
    if raws.isEmpty then ⟨false, 0, 0, []⟩
    else match env.insertFail with
      | some e => ⟨false, 0, 0, [e]⟩
      | none =>
        let r := aggLoop env.aggOutcome aggErr env.dates
        ⟨true, raws.length, r.1, r.2⟩

/-- The statistics dict of `compute_snapshots`. -/
structure SnapshotStats where
  success : Bool
  snapshots : Nat
  errors : List String
deriving DecidableEq, Repr

/-- `IngestionPipeline.compute_snapshots` (ingestion_pipeline.py lines
573-607): per-date loop over the window, one error entry per failing date;
`success = snapshots > 0`. -/
def compute_snapshots (agg : String → Except String Unit)
    (dates : List String) : SnapshotStats :=
  let r := aggLoop agg snapErr dates
  ⟨decide (r.1 > 0), r.1, r.2⟩

/-- Outcomes of all external effects of one full pipeline run. -/
structure PipelineEnv where
  ohlc : StageEnv
  sentiment : StageEnv
  etf_flows : StageEnv
  marketMetricsEnabled : Bool
  market_metrics : StageEnv
  binanceFuturesEnabled : Bool
  funding_rates : StageEnv
  open_interest : StageEnv
  social : RawAggEnv
  twitter : RawAggEnv
  news : RawAggEnv
  search : RawAggEnv
  snapshotAgg : String → Except String Unit
  snapshotDates : List String

/-- The per-stage blocks of the result dict of `run_full_ingestion`. -/
structure PipelineResults where
  ohlc : StageStats
  sentiment : StageStats
  etf_flows : StageStats
  market_metrics : StageStats
  funding_rates : StageStats
  open_interest : StageStats
  social_sentiment : RawAggStats
  twitter_sentiment : RawAggStats
  news_sentiment : RawAggStats
  search_trends : RawAggStats
  snapshots : SnapshotStats
  overall_success : Bool

/-- `IngestionPipeline.run_full_ingestion` (ingestion_pipeline.py lines
609-725): runs the eleven stages in order and sets
`overall_success = ohlc.success and sentiment.success`. -/
def run_full_ingestion (env : PipelineEnv) : PipelineResults :=
  let ohlcS := ingestSimple env.ohlc
  let sentS := ingestSimple env.sentiment
  { ohlc := ohlcS
    sentiment := sentS
    etf_flows := ingestSimple env.etf_flows
    market_metrics := ingestOptional env.marketMetricsEnabled env.market_metrics
    funding_rates := ingestOptional env.binanceFuturesEnabled env.funding_rates
    open_interest := ingestOptional env.binanceFuturesEnabled env.open_interest
    social_sentiment := ingestRawAgg env.social
    twitter_sentiment := ingestRawAgg env.twitter
    news_sentiment := ingestRawAgg env.news
    search_trends := ingestRawAgg env.search
    snapshots := compute_snapshots env.snapshotAgg env.snapshotDates
    overall_success := ohlcS.success && sentS.success }

theorem aggLoop_characterization (agg : String → Except String Unit)
    (mkErr : String → String → String) (dates : List String) :
    aggLoop agg mkErr dates
      = (dates.countP (fun d => exceptOk (agg d)),
         dates.filterMap (fun d =>
           match agg d with
           | .ok _ => none
           | .error e => some (mkErr d e))) := by
  have go : ∀ (ds : List String) (n : Nat) (errs : List String),
      ds.foldl
        (fun acc date =>
          match agg date with
          | .ok _ => (acc.1 + 1, acc.2)
          | .error e => (acc.1, acc.2 ++ [mkErr date e]))
        (n, errs)
      = (n + ds.countP (fun d => exceptOk (agg d)),
         errs ++ ds.filterMap (fun d =>
           match agg d with
           | .ok _ => none
           | .error e => some (mkErr d e))) := by
    intro ds
    induction ds with
    | nil => intro n errs; simp
    | cons d ds ih =>
      intro n errs
      simp only [List.foldl_cons, List.countP_cons, List.filterMap_cons]
      cases h : agg d with
      | ok v =>
        simp [h, ih, exceptOk, Prod.mk.injEq]
        omega
      | error e =>
        simp [h, ih, exceptOk, Prod.mk.injEq, List.append_assoc]
  have := go dates 0 []
  unfold aggLoop
  rw [this]
  simp

/-- C3: `run_full_ingestion` reports `overall_success = true` iff both the
OHLC stage and the sentiment-index stage report success, and the outcomes
of all other stages (ETF flows, market metrics, funding rates, open
interest, social, Twitter, news, search trends, snapshots) never change
`overall_success`: two runs agreeing on the OHLC and sentiment inputs but
differing arbitrarily everywhere else report the same `overall_success`. -/
theorem overall_success_core_stages_only (env env2 : PipelineEnv)
    (hohlc : env2.ohlc = env.ohlc) (hsent : env2.sentiment = env.sentiment) :
    ((run_full_ingestion env).overall_success = true
      ↔ (run_full_ingestion env).ohlc.success = true
        ∧ (run_full_ingestion env).sentiment.success = true)
    ∧ (run_full_ingestion env2).overall_success
        = (run_full_ingestion env).overall_success := by
  constructor
  · simp [run_full_ingestion]
  · simp [run_full_ingestion, hohlc, hsent]

/-- A concrete pipeline run: OHLC and sentiment-index succeed, the ETF-flow
fetch raises, every enrichment stage is disabled or failing. -/
def envEtfFails : PipelineEnv :=
  { ohlc := ⟨.ok [[Val.str "bitcoin"]], none⟩
    sentiment := ⟨.ok [[Val.str "2024-01-15"]], none⟩
    etf_flows := ⟨.error "etf fetch failed", none⟩
    marketMetricsEnabled := false
    market_metrics := ⟨.ok [], none⟩
    binanceFuturesEnabled := false
    funding_rates := ⟨.ok [], none⟩
    open_interest := ⟨.ok [], none⟩
    social := ⟨false, .ok [], none, [], fun _ => .ok ()⟩
    twitter := ⟨false, .ok [], none, [], fun _ => .ok ()⟩
    news := ⟨false, .ok [], none, [], fun _ => .ok ()⟩
    search := ⟨false, .ok [], none, [], fun _ => .ok ()⟩
    snapshotAgg := fun _ => .error "no data"
    snapshotDates := ["2024-01-15"] }

/-- The same run except the ETF-flow fetch succeeds. -/
def envEtfSucceeds : PipelineEnv :=
  { envEtfFails with etf_flows := ⟨.ok [[Val.str "IBIT"]], none⟩ }

/-- Witness for C3: with a failing ETF-flow fetch while OHLC and
sentiment succeed, `overall_success` is true, the ETF stage reports
`success=false` with the captured error, and repairing the ETF stage
leaves `overall_success` unchanged. -/
theorem overall_success_core_stages_only_witness :
    ((run_full_ingestion envEtfFails).overall_success = true
      ↔ (run_full_ingestion envEtfFails).ohlc.success = true
        ∧ (run_full_ingestion envEtfFails).sentiment.success = true)
    ∧ (run_full_ingestion envEtfSucceeds).overall_success
        = (run_full_ingestion envEtfFails).overall_success
    ∧ (run_full_ingestion envEtfFails).overall_success = true
    ∧ (run_full_ingestion envEtfFails).etf_flows
        = ⟨false, 0, ["etf fetch failed"]⟩ := by
  refine ⟨(overall_success_core_stages_only envEtfFails envEtfSucceeds rfl rfl).1,
          (overall_success_core_stages_only envEtfFails envEtfSucceeds rfl rfl).2,
          rfl, rfl⟩

/-- C9: in every per-day aggregation loop — the four raw+aggregate stages
(social, Twitter, news, search trends all run `ingestRawAgg`) and the
snapshot stage — each date's aggregation outcome contributes on its own: a
failing date adds exactly one entry to the stage's error list and leaves
every other date's contribution intact (the loop result is a pointwise
function of the per-date outcomes), and the stage returns its statistics
dict rather than propagating the failure (`success` is still set after the
loop). -/
theorem per_date_failures_isolated (env : RawAggEnv)
    (agg : String → Except String Unit) (dates : List String)
    (raws : List Row) (henabled : env.enabled = true)
    (hfetch : env.fetch = .ok raws) (hne : raws ≠ [])
    (hins : env.insertFail = none) :
    (ingestRawAgg env).errors
        = env.dates.filterMap (fun d =>
            match env.aggOutcome d with
            | .ok _ => none
            | .error e => some (aggErr d e))
    ∧ (ingestRawAgg env).aggregated_records
        = env.dates.countP (fun d => exceptOk (env.aggOutcome d))
    ∧ (ingestRawAgg env).success = true
    ∧ (compute_snapshots agg dates).errors
        = dates.filterMap (fun d =>
            match agg d with
            | .ok _ => none
            | .error e => some (snapErr d e))
    ∧ (compute_snapshots agg dates).snapshots
        = dates.countP (fun d => exceptOk (agg d)) := by
  have hbody : ingestRawAgg env
      = ⟨true, raws.length, (aggLoop env.aggOutcome aggErr env.dates).1,
         (aggLoop env.aggOutcome aggErr env.dates).2⟩ := by
    unfold ingestRawAgg
    rw [henabled, hfetch, hins]
    simp [List.isEmpty_eq_true, hne]
  refine ⟨?_, ?_, ?_, ?_, ?_⟩
  · rw [hbody, aggLoop_characterization]
  · rw [hbody, aggLoop_characterization]
  · rw [hbody]
  · unfold compute_snapshots
    rw [aggLoop_characterization]
  · unfold compute_snapshots
    rw [aggLoop_characterization]

/-- A concrete raw+aggregate environment: three dates, the middle one
failing. -/
def envMidFail : RawAggEnv :=
  ⟨true, .ok [[Val.str "post1"]], none, ["2024-01-13", "2024-01-14", "2024-01-15"],
   fun d => if d = "2024-01-14" then .error "boom" else .ok ()⟩

/-- Witness for C9: with the middle of three dates failing, the stage
records exactly one error for that date, still aggregates the other two
dates, and reports `success=true`; the snapshot loop behaves likewise. -/
theorem per_date_failures_isolated_witness :
    (ingestRawAgg envMidFail).errors = ["Aggregation 2024-01-14: boom"]
    ∧ (ingestRawAgg envMidFail).aggregated_records = 2
    ∧ (ingestRawAgg envMidFail).success = true
    ∧ (compute_snapshots envMidFail.aggOutcome envMidFail.dates).errors
        = ["2024-01-14: boom"]
    ∧ (compute_snapshots envMidFail.aggOutcome envMidFail.dates).snapshots = 2 := by
  have h := per_date_failures_isolated envMidFail envMidFail.aggOutcome
    envMidFail.dates [[Val.str "post1"]] rfl rfl (by decide) rfl
  refine ⟨?_, ?_, h.2.2.1, ?_, ?_⟩
  · rw [h.1]; rfl
  · rw [h.2.1]; rfl
  · rw [h.2.2.2.1]; rfl
  · rw [h.2.2.2.2]; rfl

/-- C10: `compute_snapshots` reports `success=true` iff at least one of the
requested dates' snapshot computations succeeded — it reports `false`
exactly when every date of the window failed, and `true` even when some
but not all per-date computations failed. -/
theorem compute_snapshots_success_iff (agg : String → Except String Unit)
    (dates : List String) :
    ((compute_snapshots agg dates).success = true
      ↔ ∃ d ∈ dates, exceptOk (agg d) = true)
    ∧ ((compute_snapshots agg dates).success = false
      ↔ ∀ d ∈ dates, ∃ e, agg d = Except.error e) := by
  have hsnap : (compute_snapshots agg dates).success
      = decide (0 < dates.countP (fun d => exceptOk (agg d))) := by
    unfold compute_snapshots
    rw [aggLoop_characterization]
  have hpos : (compute_snapshots agg dates).success = true
      ↔ ∃ d ∈ dates, exceptOk (agg d) = true := by
    rw [hsnap, decide_eq_true_iff, List.countP_pos]
  refine ⟨hpos, ?_⟩
  rw [← Bool.not_eq_true, hpos]
  push_neg
  constructor
  · intro h d hd
    have := h d hd
    cases hc : agg d with
    | ok v => exact absurd (by simp [exceptOk, hc]) (this · )
    | error e => exact ⟨e, rfl⟩
  · intro h d hd
    obtain ⟨e, he⟩ := h d hd
    simp [exceptOk, he]

/-- Witness for C10: the three-date window with one failing date still
reports `success=true`; a window where every date fails reports
`success=false`. -/
theorem compute_snapshots_success_iff_witness :
    (compute_snapshots envMidFail.aggOutcome envMidFail.dates).success = true
    ∧ (compute_snapshots (fun _ => Except.error "down") ["2024-01-15"]).success
        = false :=
  ⟨(compute_snapshots_success_iff envMidFail.aggOutcome envMidFail.dates).1.mpr
      ⟨"2024-01-13", by decide, rfl⟩,
   (compute_snapshots_success_iff (fun _ => Except.error "down")
      ["2024-01-15"]).2.mpr (fun d _ => ⟨"down", rfl⟩)⟩

end IngestionPipeline

/-!
## Search-interest aggregation (C5)

`MarketDatabase.compute_search_interest_from_raw` (database.py lines
902-960).  Calendar days are encoded as integer day indices, so that
`DATE(ts_utc)` is the row's `day` field and `DATE(?, '-1 day')` is `d - 1`.
-/

namespace SearchInterest

/-- A row of `search_trends_raw` as the aggregation query reads it. -/
structure TrendRow where
  day : ℤ
  keyword : String
  interest_score : ℚ
deriving DecidableEq, Repr

/-- The interest scores of a keyword's raw rows on a calendar day. -/
def dayAvgList (rows : List TrendRow) (d : ℤ) (k : String) : List ℚ :=
  (rows.filter (fun r => r.day = d ∧ r.keyword = k)).map
    (fun r => r.interest_score)

/-- One `GROUP BY (day, keyword)` group's `AVG(interest_score)`: `none`
when the keyword has no raw rows on that day (the GROUP BY emits no row). -/
def dayAvg (rows : List TrendRow) (d : ℤ) (k : String) : Option ℚ :=
  if (dayAvgList rows d k).isEmpty then none
  else some ((dayAvgList rows d k).sum / ((dayAvgList rows d k).length : ℚ))

/-- An output row of `search_interest_daily` as the INSERT produces it. -/
structure SIRow where
  keyword : String
  interest_score : ℚ
  interest_change_pct : Option ℚ
deriving DecidableEq, Repr

/-- The SELECT of `compute_search_interest_from_raw`: one row per keyword
of the `daily_interest` groups for day `d`, LEFT JOINed with the previous
day's groups on the keyword; `interest_change_pct` is
`(cur - prev) / prev * 100` when the previous-day row exists and its
average is `> 0`, else NULL. -/
def compute_search_interest_from_raw (rows : List TrendRow) (d : ℤ) :
    List SIRow :=
  (((rows.filter (fun r => r.day = d)).map (fun r => r.keyword)).dedup).filterMap
    (fun k =>
      match dayAvg rows d k with
      | none => none
      | some cur =>
        some ⟨k, cur,
          match dayAvg rows (d - 1) k with
          | none => none
          | some prev =>
            if 0 < prev then some ((cur - prev) / prev * 100) else none⟩)

theorem dayAvg_nonneg (rows : List TrendRow)
    (hnn : ∀ r ∈ rows, 0 ≤ r.interest_score) (d : ℤ) (k : String) (p : ℚ)
    (hp : dayAvg rows d k = some p) : 0 ≤ p := by
  unfold dayAvg at hp
  split_ifs at hp with h
  obtain rfl : _ = p := Option.some.inj hp
  apply div_nonneg
  · apply List.sum_nonneg
    intro x hx
    unfold dayAvgList at hx
    obtain ⟨r, hr, rfl⟩ := List.mem_map.mp hx
    exact hnn r (List.mem_filter.mp hr).1
  · exact Nat.cast_nonneg _

theorem dayAvg_exists_row (rows : List TrendRow) (d : ℤ) (k : String) (c : ℚ)
    (hc : dayAvg rows d k = some c) : ∃ r ∈ rows, r.day = d ∧ r.keyword = k := by
  unfold dayAvg at hc
  split_ifs at hc with h
  have h3 : dayAvgList rows d k ≠ [] := by
    intro hnil
    rw [hnil] at h
    exact h rfl
  obtain ⟨x, hx⟩ := List.exists_mem_of_ne_nil _ h3
  unfold dayAvgList at hx
  obtain ⟨r, hr, _⟩ := List.mem_map.mp hx
  have h2 := List.mem_filter.mp hr
  exact ⟨r, h2.1, by simpa using h2.2⟩

/-- C5: for raw trend points with nonnegative interest scores (Google
Trends scores are in `[0, 100]`), a keyword present on day `d` produces
exactly the row whose `interest_score` is the day-`d` average and whose
`interest_change_pct` is `(avg(D) - avg(D-1)) / avg(D-1) * 100` when the
preceding day has data with nonzero average, and NULL when the preceding
day has no data for the keyword or its average is zero — division by zero
never occurs. -/
theorem search_interest_delta (rows : List TrendRow)
    (hnn : ∀ r ∈ rows, 0 ≤ r.interest_score) (d : ℤ) (k : String) (c : ℚ)
    (hc : dayAvg rows d k = some c) :
    (∃ si ∈ compute_search_interest_from_raw rows d, si.keyword = k)
    ∧ ∀ si ∈ compute_search_interest_from_raw rows d, si.keyword = k →
        si.interest_score = c
        ∧ si.interest_change_pct
            = match dayAvg rows (d - 1) k with
              | none => none
              | some p => if p = 0 then none else some ((c - p) / p * 100) := by
  have hex : ∃ r ∈ rows, r.day = d ∧ r.keyword = k :=
    dayAvg_exists_row rows d k c hc
  have hkmem : k ∈ ((rows.filter (fun r => r.day = d)).map
      (fun r => r.keyword)).dedup := by
    obtain ⟨r, hr, hd, hk⟩ := hex
    exact List.mem_dedup.mpr (List.mem_map.mpr
      ⟨r, List.mem_filter.mpr ⟨hr, by simpa using hd⟩, hk⟩)
  have hchg : ∀ cur : ℚ,
      (match dayAvg rows (d - 1) k with
        | none => none
        | some prev =>
          if 0 < prev then some ((cur - prev) / prev * 100) else none)
      = (match dayAvg rows (d - 1) k with
          | none => none
          | some p => if p = 0 then none else some ((cur - p) / p * 100)) := by
    intro cur
    cases hp : dayAvg rows (d - 1) k with
    | none => rfl
    | some p =>
      have hge : 0 ≤ p := dayAvg_nonneg rows hnn (d - 1) k p hp
      by_cases hz : p = 0
      · simp [hz]
      · simp [hz, lt_of_le_of_ne hge (Ne.symm hz)]
  constructor
  · refine ⟨⟨k, c, match dayAvg rows (d - 1) k with
      | none => none
      | some prev =>
        if 0 < prev then some ((c - prev) / prev * 100) else none⟩,
      List.mem_filterMap.mpr ⟨k, hkmem, by rw [hc]⟩, rfl⟩
  · intro si hsi hk
    obtain ⟨k2, hk2, hfk2⟩ := List.mem_filterMap.mp hsi
    cases h2 : dayAvg rows d k2 with
    | none => rw [h2] at hfk2; exact absurd hfk2 (by simp)
    | some cur =>
      rw [h2] at hfk2
      obtain rfl : _ = si := Option.some.inj hfk2
      have hkk : k2 = k := hk
      subst hkk
      rw [hc] at h2
      obtain rfl : c = cur := (Option.some.inj h2)
      exact ⟨rfl, hchg c⟩

/-- Raw trends: keyword "bitcoin" averages 80 on day 0 and 90 on day 1. -/
def trendRows8090 : List TrendRow :=
  [⟨0, "bitcoin", 70⟩, ⟨0, "bitcoin", 90⟩, ⟨1, "bitcoin", 85⟩, ⟨1, "bitcoin", 95⟩]

/-- Raw trends: keyword "ethereum" has day-1 data only. -/
def trendRowsNoPrev : List TrendRow := [⟨1, "ethereum", 50⟩]

/-- Witness for C5: prior-day average 80 and same-day average 90 yield the
output row with `interest_change_pct` exactly 12.5; with no prior-day data
the delta is NULL. -/
theorem search_interest_delta_witness :
    (⟨"bitcoin", 90, some (25/2)⟩ : SIRow)
        ∈ compute_search_interest_from_raw trendRows8090 1
    ∧ (⟨"ethereum", 50, none⟩ : SIRow)
        ∈ compute_search_interest_from_raw trendRowsNoPrev 1 := by
  constructor
  · have h := search_interest_delta trendRows8090
      (by norm_num [trendRows8090]) 1 "bitcoin" 90
      (by norm_num [dayAvg, dayAvgList, trendRows8090])
    obtain ⟨si, hsi, hk⟩ := h.1
    obtain ⟨hscore, hchg⟩ := h.2 si hsi hk
    have hchg2 : si.interest_change_pct = some (25/2) := by
      rw [hchg]
      norm_num [dayAvg, dayAvgList, trendRows8090]
    have hsieq : si = ⟨"bitcoin", 90, some (25/2)⟩ := by
      cases si with
      | mk a b ch =>
        simp only [SIRow.mk.injEq]
        exact ⟨hk, hscore, hchg2⟩
    rw [← hsieq]
    exact hsi
  · have h := search_interest_delta trendRowsNoPrev
      (by norm_num [trendRowsNoPrev]) 1 "ethereum" 50
      (by norm_num [dayAvg, dayAvgList, trendRowsNoPrev])
    obtain ⟨si, hsi, hk⟩ := h.1
    obtain ⟨hscore, hchg⟩ := h.2 si hsi hk
    have hchg2 : si.interest_change_pct = none := by
      rw [hchg]
      norm_num [dayAvg, dayAvgList, trendRowsNoPrev]
    have hsieq : si = ⟨"ethereum", 50, none⟩ := by
      cases si with
      | mk a b ch =>
        simp only [SIRow.mk.injEq]
        exact ⟨hk, hscore, hchg2⟩
    rw [← hsieq]
    exact hsi

end SearchInterest

/-!
## The daily snapshot query (C4, C7)

`MarketDatabase.compute_daily_snapshot` (database.py lines 172-298).
SQLite compares the ISO-8601 `ts_utc` strings lexicographically, which on
these strings is order-isomorphic to chronological order; timestamps are
therefore encoded order-isomorphically as naturals, and a bar carries its
`DATE(ts_utc)` truncation as an integer day index (as in the
search-interest model).
-/

namespace DailySnapshot

/-- A row of `ohlc_hourly` as the snapshot query reads it. -/
structure Bar where
  asset : String
  ts_utc : ℕ
  day : ℤ
  close : ℚ
deriving DecidableEq, Repr

/-!
### The `volatility` CTE (C7)

```
SELECT asset,
  (SQRT(AVG(close*close) - AVG(close)*AVG(close)) / AVG(close)) * 100
FROM ohlc_hourly
WHERE ts_utc >= DATE(?, '-7 days') AND ts_utc <= DATE(?)
GROUP BY asset
```
`lo` and `hi` are the (encoded) values of the two computed date strings.
SQLite yields NULL on division by zero; the SQRT argument is the population
variance `avg(x²) - avg(x)²`, which is nonnegative, so `Real.sqrt` models
SQLite's SQRT on every reachable input.
-/

/-- The closes of an asset's bars inside the volatility window. -/
def windowCloses (rows : List Bar) (lo hi : ℕ) (a : String) : List ℚ :=
  (rows.filter (fun b => lo ≤ b.ts_utc ∧ b.ts_utc ≤ hi ∧ b.asset = a)).map
    (fun b => b.close)

/-- `AVG` of a list of rationals (SQLite computes the same quotient in
floating point; the model is exact). -/
def meanQ (xs : List ℚ) : ℚ := xs.sum / xs.length

/-- `AVG(close)` over the asset's window. -/
def volMean (rows : List Bar) (lo hi : ℕ) (a : String) : ℚ :=
  meanQ (windowCloses rows lo hi a)

/-- `AVG(close*close) - AVG(close)*AVG(close)`, the population variance of
the window's closes. -/
def volVariance (rows : List Bar) (lo hi : ℕ) (a : String) : ℚ :=
  meanQ ((windowCloses rows lo hi a).map (fun c => c * c))
    - volMean rows lo hi a * volMean rows lo hi a

/-- The asset's `realized_vol_7d_pct`: `none` when the asset has no bars in
the window (its GROUP BY group is empty) or `AVG(close)` is zero (SQLite
division by zero yields NULL); otherwise
`SQRT(variance) / AVG(close) * 100`. -/
noncomputable def realized_vol_7d_pct (rows : List Bar) (lo hi : ℕ)
    (a : String) : Option ℝ :=
  if (windowCloses rows lo hi a).isEmpty then none
  else if volMean rows lo hi a = 0 then none
  else some (Real.sqrt ((volVariance rows lo hi a : ℚ) : ℝ)
      / ((volMean rows lo hi a : ℚ) : ℝ) * 100)

theorem meanQ_const (xs : List ℚ) (c : ℚ) (hxs : ∀ x ∈ xs, x = c)
    (hne : xs ≠ []) : meanQ xs = c := by
  have hsum : xs.sum = xs.length • c := List.sum_eq_card_nsmul xs c hxs
  have hlen : (xs.length : ℚ) ≠ 0 :=
    Nat.cast_ne_zero.mpr (List.length_pos.mpr hne).ne'
  rw [meanQ, hsum, nsmul_eq_mul]
  exact mul_div_cancel_left₀ c hlen

/-- C7: the 7-day realized volatility is the coefficient of variation —
`sqrt(avg(close²) - avg(close)²) / avg(close)`, as a percentage — over the
asset's closes in the trailing window, and for a non-empty window whose
closes are all equal (with nonzero mean) it is exactly 0. -/
theorem realized_vol_is_cv (rows : List Bar) (lo hi : ℕ) (a : String) :
    ((windowCloses rows lo hi a ≠ [] → volMean rows lo hi a ≠ 0 →
      realized_vol_7d_pct rows lo hi a
        = some (Real.sqrt ((volVariance rows lo hi a : ℚ) : ℝ)
            / ((volMean rows lo hi a : ℚ) : ℝ) * 100)))
    ∧ ∀ c0 : ℚ, windowCloses rows lo hi a ≠ []
        → (∀ c ∈ windowCloses rows lo hi a, c = c0) → c0 ≠ 0
        → realized_vol_7d_pct rows lo hi a = some 0 := by
  constructor
  · intro hne hmean
    have h1 : ¬ ((windowCloses rows lo hi a).isEmpty = true) := by
      simp [List.isEmpty_iff, hne]
    rw [realized_vol_7d_pct, if_neg h1, if_neg hmean]
  · intro c0 hne hconst hc0
    have hmean : volMean rows lo hi a = c0 := meanQ_const _ _ hconst hne
    have hsq : ∀ x ∈ (windowCloses rows lo hi a).map (fun c => c * c),
        x = c0 * c0 := by
      intro x hx
      obtain ⟨c, hc, rfl⟩ := List.mem_map.mp hx
      rw [hconst c hc]
    have hvar : volVariance rows lo hi a = 0 := by
      rw [volVariance, meanQ_const _ _ hsq (by simp [hne]), hmean, sub_self]
    have h1 : ¬ ((windowCloses rows lo hi a).isEmpty = true) := by
      simp [List.isEmpty_iff, hne]
    rw [realized_vol_7d_pct, if_neg h1, if_neg (by rw [hmean]; exact hc0),
      hvar, hmean]
    simp

/-- Two bitcoin bars inside the window, both closing at 50. -/
def volBars : List Bar := [⟨"bitcoin", 5, 0, 50⟩, ⟨"bitcoin", 6, 0, 50⟩]

/-- Witness for C7: a constant close series over the window computes a
realized volatility of exactly 0. -/
theorem realized_vol_is_cv_witness :
    realized_vol_7d_pct volBars 0 10 "bitcoin" = some 0 :=
  (realized_vol_is_cv volBars 0 10 "bitcoin").2 50
    (by simp [windowCloses, volBars])
    (by norm_num [windowCloses, volBars])
    (by norm_num)

/-!
### The `latest_prices` and `price_metrics` CTEs (C4)

```
latest_prices AS (
  SELECT asset, close as price_close_usd, ts_utc,
         LAG(close, 24) OVER (PARTITION BY asset ORDER BY ts_utc)
           as price_24h_ago
  FROM ohlc_hourly WHERE DATE(ts_utc) = ?),
price_metrics AS (
  SELECT asset, price_close_usd,
         CASE WHEN price_24h_ago IS NOT NULL
              THEN ((price_close_usd - price_24h_ago) / price_24h_ago * 100)
              ELSE NULL END as price_chg_24h_pct
  FROM latest_prices
  WHERE ts_utc = (SELECT MAX(ts_utc) FROM latest_prices))
```
-/

/-- The day's bars (`WHERE DATE(ts_utc) = ?`). -/
def dayRows (rows : List Bar) (d : ℤ) : List Bar :=
  rows.filter (fun b => b.day = d)

/-- `ORDER BY ts_utc` on bars. -/
def tsLe (b1 b2 : Bar) : Prop := b1.ts_utc ≤ b2.ts_utc

instance : DecidableRel tsLe := fun b1 b2 => Nat.decLe b1.ts_utc b2.ts_utc

instance : IsTotal Bar tsLe := ⟨fun b1 b2 => Nat.le_total b1.ts_utc b2.ts_utc⟩

instance : IsTrans Bar tsLe := ⟨fun _ _ _ => Nat.le_trans⟩

/-- One asset's partition of the day's rows, in `ORDER BY ts_utc` order. -/
def series (rows : List Bar) (d : ℤ) (a : String) : List Bar :=
  List.insertionSort tsLe ((dayRows rows d).filter (fun b => b.asset = a))

/-- A row of the `latest_prices` CTE. -/
structure LPRow where
  asset : String
  price_close_usd : ℚ
  ts_utc : ℕ
  price_24h_ago : Option ℚ
deriving DecidableEq, Repr

/-- `LAG(close, 24) OVER (... ORDER BY ts_utc)` applied to one ordered
asset partition: the row at position `i` is annotated with the close 24
positions earlier, NULL when there is none. -/
def lagAnnotate (s : List Bar) : List LPRow :=
  (List.range s.length).filterMap (fun i =>
    (s.get? i).map (fun b =>
      ⟨b.asset, b.close, b.ts_utc,
       if 24 ≤ i then (s.get? (i - 24)).map (fun p => p.close) else none⟩))

/-- The assets of the day's rows (the window partitions). -/
def dayAssets (rows : List Bar) (d : ℤ) : List String :=
  ((dayRows rows d).map (fun b => b.asset)).dedup

/-- The `latest_prices` CTE: the union of the annotated asset partitions. -/
def latest_prices (rows : List Bar) (d : ℤ) : List LPRow :=
  (dayAssets rows d).bind (fun a => lagAnnotate (series rows d a))

/-- `SELECT MAX(ts_utc) FROM latest_prices`. -/
def maxTs (rows : List Bar) (d : ℤ) : Option ℕ :=
  ((latest_prices rows d).map (fun lp => lp.ts_utc)).maximum

/-- A row of the `price_metrics` CTE. -/
structure PMRow where
  asset : String
  price_close_usd : ℚ
  price_chg_24h_pct : Option ℚ
deriving DecidableEq, Repr

/-- The `price_metrics` CTE: the rows of `latest_prices` at the day's
maximum timestamp; `price_chg_24h_pct` is
`(close - price_24h_ago) / price_24h_ago * 100` when the lag value is
non-NULL (SQLite yields NULL for the division when the lag value is zero),
NULL otherwise. -/
def price_metrics (rows : List Bar) (d : ℤ) : List PMRow :=
  ((latest_prices rows d).filter
    (fun lp => some lp.ts_utc = maxTs rows d)).map
    (fun lp =>
      ⟨lp.asset, lp.price_close_usd,
       match lp.price_24h_ago with
       | none => none
       | some prev =>
         if prev = 0 then none
         else some ((lp.price_close_usd - prev) / prev * 100)⟩)

theorem mem_series_iff (rows : List Bar) (d : ℤ) (a : String) (b : Bar) :
    b ∈ series rows d a ↔ b ∈ rows ∧ b.day = d ∧ b.asset = a := by
  unfold series dayRows
  rw [(List.perm_insertionSort tsLe _).mem_iff]
  simp only [List.mem_filter, decide_eq_true_eq, and_assoc]

theorem series_map_key_nodup (rows : List Bar) (d : ℤ) (a : String)
    (hnodup : (rows.map (fun b => (b.asset, b.ts_utc))).Nodup) :
    ((series rows d a).map (fun b => (b.asset, b.ts_utc))).Nodup := by
  have hsub : List.Sublist ((dayRows rows d).filter (fun b => b.asset = a)) rows :=
    (List.filter_sublist _).trans (List.filter_sublist _)
  have h1 : (((dayRows rows d).filter (fun b => b.asset = a)).map
      (fun b => (b.asset, b.ts_utc))).Nodup :=
    hnodup.sublist (hsub.map _)
  exact ((List.perm_insertionSort tsLe _).map _).nodup_iff.mpr h1

theorem series_map_ts_nodup (rows : List Bar) (d : ℤ) (a : String)
    (hnodup : (rows.map (fun b => (b.asset, b.ts_utc))).Nodup) :
    ((series rows d a).map (fun b => b.ts_utc)).Nodup := by
  have h1 := series_map_key_nodup rows d a hnodup
  have h2 : ∀ x ∈ (series rows d a).map (fun b => (b.asset, b.ts_utc)),
      ∀ y ∈ (series rows d a).map (fun b => (b.asset, b.ts_utc)),
      x.2 = y.2 → x = y := by
    intro x hx y hy hxy
    obtain ⟨bx, hbx, rfl⟩ := List.mem_map.mp hx
    obtain ⟨bz, hbz, rfl⟩ := List.mem_map.mp hy
    have hax : bx.asset = a := ((mem_series_iff rows d a bx).mp hbx).2.2
    have haz : bz.asset = a := ((mem_series_iff rows d a bz).mp hbz).2.2
    simp only [Prod.mk.injEq]
    exact ⟨hax.trans haz.symm, hxy⟩
  have h3 := h1.map_on h2
  rw [List.map_map] at h3
  exact h3

theorem mem_latest_prices (rows : List Bar) (d : ℤ) (lp : LPRow)
    (h : lp ∈ latest_prices rows d) :
    ∃ a ∈ dayAssets rows d, ∃ i b, (series rows d a).get? i = some b
      ∧ lp = ⟨b.asset, b.close, b.ts_utc,
          if 24 ≤ i then ((series rows d a).get? (i - 24)).map (fun p => p.close)
          else none⟩ := by
  obtain ⟨a, ha, hlag⟩ := List.mem_flatMap.mp h
  refine ⟨a, ha, ?_⟩
  unfold lagAnnotate at hlag
  obtain ⟨i, _, heq⟩ := List.mem_filterMap.mp hlag
  obtain ⟨b, hb, hfb⟩ := Option.map_eq_some'.mp heq
  exact ⟨i, b, hb, hfb.symm⟩

theorem series_ts_le_max (rows : List Bar) (d : ℤ) (a : String)
    (ha : a ∈ dayAssets rows d) (b : Bar) (hb : b ∈ series rows d a) (m : ℕ)
    (hm : maxTs rows d = some m) : b.ts_utc ≤ m := by
  obtain ⟨i, hi⟩ := List.mem_iff_get?.mp hb
  have hilt : i < (series rows d a).length := (List.get?_eq_some.mp hi).choose
  have hmem : (⟨b.asset, b.close, b.ts_utc,
      if 24 ≤ i then ((series rows d a).get? (i - 24)).map (fun p => p.close)
      else none⟩ : LPRow) ∈ lagAnnotate (series rows d a) := by
    unfold lagAnnotate
    exact List.mem_filterMap.mpr ⟨i, List.mem_range.mpr hilt, by rw [hi]; rfl⟩
  have hmem2 : (⟨b.asset, b.close, b.ts_utc,
      if 24 ≤ i then ((series rows d a).get? (i - 24)).map (fun p => p.close)
      else none⟩ : LPRow) ∈ latest_prices rows d :=
    List.mem_flatMap.mpr ⟨a, ha, hmem⟩
  have hts : b.ts_utc ∈ (latest_prices rows d).map (fun lp => lp.ts_utc) :=
    List.mem_map.mpr ⟨_, hmem2, rfl⟩
  exact List.le_maximum_of_mem hts hm

theorem get_last_of_max (s : List Bar) (hs : s.Sorted tsLe)
    (hnd : (s.map (fun b => b.ts_utc)).Nodup)
    (i : ℕ) (b : Bar) (hib : s.get? i = some b)
    (hmax : ∀ b2 ∈ s, b2.ts_utc ≤ b.ts_utc) :
    i + 1 = s.length := by
  obtain ⟨hi, hget⟩ := List.get?_eq_some.mp hib
  by_contra hne
  have hlen : 0 < s.length := lt_of_le_of_lt (Nat.zero_le i) hi
  have hjlt : s.length - 1 < s.length := Nat.sub_lt hlen one_pos
  have hij : i < s.length - 1 := by omega
  have hrel : tsLe (s.get ⟨i, hi⟩) (s.get ⟨s.length - 1, hjlt⟩) :=
    hs.rel_get_of_lt (by exact hij)
  rw [hget] at hrel
  have hle2 : (s.get ⟨s.length - 1, hjlt⟩).ts_utc ≤ b.ts_utc :=
    hmax _ (s.get_mem _ _)
  have hts : (s.get ⟨s.length - 1, hjlt⟩).ts_utc = b.ts_utc :=
    le_antisymm hle2 hrel
  have hmi : i < (s.map (fun b => b.ts_utc)).length := by simpa using hi
  have hmj : s.length - 1 < (s.map (fun b => b.ts_utc)).length := by simpa using hjlt
  have hms : (s.map (fun b => b.ts_utc)).get ⟨i, hmi⟩
      = (s.map (fun b => b.ts_utc)).get ⟨s.length - 1, hmj⟩ := by
    rw [List.get_map, List.get_map]
    simp only []
    rw [hget, hts]
  have := hnd.get_inj_iff.mp hms
  rw [Fin.mk.injEq] at this
  omega

/-- C4: every `price_metrics` row is the asset's last bar of the day's
ordered series (the global maximum timestamp of the day), and its
`price_chg_24h_pct` compares that close against the close exactly 24
positions earlier in the same ordered series — a bar-count offset: NULL
whenever fewer than 24 prior bars exist (in particular whenever the series
has fewer than 25 bars), the quotient formula otherwise, and never a
division error (a zero 24-bars-ago close also yields NULL, as SQLite's
division does).  The hypothesis is the table's `UNIQUE(asset, ts_utc)`
constraint. -/
theorem price_chg_24h_bar_offset (rows : List Bar) (d : ℤ)
    (hnodup : (rows.map (fun b => (b.asset, b.ts_utc))).Nodup) :
    ∀ pm ∈ price_metrics rows d, ∃ i last,
      i + 1 = (series rows d pm.asset).length
      ∧ (series rows d pm.asset).get? i = some last
      ∧ pm.price_close_usd = last.close
      ∧ some last.ts_utc = maxTs rows d
      ∧ pm.price_chg_24h_pct
          = (match (if 24 ≤ i then (series rows d pm.asset).get? (i - 24)
                    else none) with
             | none => none
             | some b24 =>
               if b24.close = 0 then none
               else some ((last.close - b24.close) / b24.close * 100))
      ∧ ((series rows d pm.asset).length < 25 →
          pm.price_chg_24h_pct = none) := by
  intro pm hpm
  unfold price_metrics at hpm
  obtain ⟨lp, hlpf, hpmeq⟩ := List.mem_map.mp hpm
  have hlpfilter := List.mem_filter.mp hlpf
  have hlp_mem : lp ∈ latest_prices rows d := hlpfilter.1
  have hlpmax : some lp.ts_utc = maxTs rows d := of_decide_eq_true hlpfilter.2
  obtain ⟨a, ha, i, b, hib, hlpeq⟩ := mem_latest_prices rows d lp hlp_mem
  obtain ⟨hi, hget⟩ := List.get?_eq_some.mp hib
  have hbmem : b ∈ series rows d a := by
    rw [← hget]; exact List.get_mem _ _ _
  have hba : b.asset = a := ((mem_series_iff rows d a b).mp hbmem).2.2
  have hpa : pm.asset = a := by rw [← hpmeq, hlpeq]; exact hba
  have hmaxb : maxTs rows d = some b.ts_utc := by
    rw [← hlpmax, hlpeq]
  have hmaxall : ∀ b2 ∈ series rows d a, b2.ts_utc ≤ b.ts_utc := fun b2 hb2 =>
    series_ts_le_max rows d a ha b2 hb2 b.ts_utc hmaxb
  have hlast : i + 1 = (series rows d a).length :=
    get_last_of_max (series rows d a) (List.sorted_insertionSort tsLe _)
      (series_map_ts_nodup rows d a hnodup) i b hib hmaxall
  have hchg : pm.price_chg_24h_pct
      = (match (if 24 ≤ i then (series rows d a).get? (i - 24) else none) with
         | none => none
         | some b24 =>
           if b24.close = 0 then none
           else some ((b.close - b24.close) / b24.close * 100)) := by
    rw [← hpmeq, hlpeq]
    by_cases h24 : 24 ≤ i
    · have hi24 : i - 24 < (series rows d a).length := lt_of_le_of_lt
        (Nat.sub_le i 24) hi
      rw [if_pos h24, if_pos h24, List.get?_eq_get hi24]
      rfl
    · rw [if_neg h24, if_neg h24]
  refine ⟨i, b, ?_, ?_, ?_, ?_, ?_, ?_⟩
  · rw [hpa]; exact hlast
  · rw [hpa]; exact hib
  · rw [← hpmeq, hlpeq]
  · rw [hmaxb]
  · rw [hpa]; exact hchg
  · intro hlen
    rw [hpa] at hlen
    have h24 : ¬ 24 ≤ i := by omega
    rw [hchg, if_neg h24]

/-- Three hourly bars of one asset on one day. -/
def barsSmall : List Bar :=
  [⟨"btc", 1, 0, 10⟩, ⟨"btc", 2, 0, 11⟩, ⟨"btc", 3, 0, 12⟩]

/-- Witness for C4: with only three bars in the asset's day series (fewer
than 24 prior bars), the snapshot's latest-bar row carries a NULL
`price_chg_24h_pct`. -/
theorem price_chg_24h_bar_offset_witness :
    (⟨"btc", 12, none⟩ : PMRow) ∈ price_metrics barsSmall 0
    ∧ (⟨"btc", 12, none⟩ : PMRow).price_chg_24h_pct = none := by
  have hmem : (⟨"btc", 12, none⟩ : PMRow) ∈ price_metrics barsSmall 0 := by
    decide
  have h := price_chg_24h_bar_offset barsSmall 0 (by decide) _ hmem
  obtain ⟨i, last, h1, h2, h3, h4, h5, h6⟩ := h
  exact ⟨hmem, h6 (by decide)⟩

end DailySnapshot

end CryptoTracker
